import Mathlib

/-!
Verification of the DataDepth CSV profiler / synthesizer.

Shallow embedding of the repository's Python sources:
  - src/datadepth/validators.py   (validate_schema)
  - src/datadepth/profiler.py     (_infer_col_type, Profiler._profile_column, Profiler.profile)
  - src/datadepth/synthesizer.py  (_as_list, _sample_numeric, _sample_categorical,
                                   _sample_datetime, _sample_text, generate_rows)
  - src/datadepth/generator.py    (_sample_numeric, _sample_datetime)

Modelling conventions:
  - Cell values are the inductive `Val`; a constructor records how the original
    cell behaves under pandas parsing: `num q` parses as the number q,
    `date d` parses as the calendar day d (days since 1970-01-01), `str s` parses
    as neither, `null` is a missing value (NaN).
  - JSON documents (the schema interchange format) are the inductive `J`.
    Python dicts are association lists `List (String × J)`; key lookup returns
    the value of the first matching key. `jdate d` stands for an ISO date string
    whose day number is d; `jsqrt q` stands for the floating value √q (pandas
    `std` emits a square root; the embedding keeps its square exactly).
    `jnull` also stands for the float NaN when it appears in a numeric field.
  - Exact rational arithmetic stands in for floating point; the thresholds
    0.8, 0.4 and 1e-9 in the source are the rationals 4/5, 2/5 and 1/10^9.
  - Randomness is passed in explicitly: normal sampling is modelled by a list of
    standard-normal draws z (the sampled value is mean + sigma * z), and
    `random.choices` by a list of index draws below the population size.
    pandas `Series.sample(k, random_state=42)` is modelled by handing the
    sampled sub-list to the function as an argument.
-/

namespace DataDepth

/-- Cell value of a parsed CSV column, tagged by its pandas parse behaviour. -/
inductive Val where
  | null : Val
  | num (q : ℚ) : Val
  | date (d : ℤ) : Val
  | str (s : String) : Val
deriving DecidableEq, Repr

/-- Does `pd.to_numeric` accept this (non-missing) value? -/
def parsesNum : Val → Bool
  | .num _ => true
  | _ => false

/-- Result of `pd.to_numeric(·, errors="coerce")` on one cell: failures and
missing values become NaN, modelled as `none`. -/
def toNum? : Val → Option ℚ
  | .num q => some q
  | _ => none

/-- Does `pd.to_datetime(·, errors="coerce")` produce a valid date here? -/
def parsesDate : Val → Bool
  | .date _ => true
  | _ => false

/-- Result of `pd.to_datetime(·, errors="coerce")` on one cell, as a day
number; failures and missing values become NaT, modelled as `none`. -/
def toDateV? : Val → Option ℤ
  | .date d => some d
  | _ => none

/-- Python `str()` of a cell value. -/
def pyStr : Val → String
  | .null => "None"
  | .num q => toString q
  | .date d => toString d
  | .str s => s

/-- JSON-like documents: the schema interchange format.  `jdate d` is an ISO
date string with day number d; `jsqrt q` is the floating value √q. -/
inductive J where
  | jnull : J
  | jbool (b : Bool) : J
  | jnum (q : ℚ) : J
  | jsqrt (q : ℚ) : J
  | jdate (d : ℤ) : J
  | jstr (s : String) : J
  | jarr (l : List J) : J
  | jobj (l : List (String × J)) : J

/-- Embed a cell value into a JSON document. -/
def valToJ : Val → J
  | .null => .jnull
  | .num q => .jnum q
  | .date d => .jdate d
  | .str s => .jstr s

/-- Python dict key lookup on an association list (first match wins). -/
def jlookup : List (String × J) → String → Option J
  | [], _ => none
  | (k, v) :: rest, key => if k = key then some v else jlookup rest key

/-- Python `key in d.keys()`. -/
def hasKey (o : List (String × J)) (k : String) : Bool :=
  (jlookup o k).isSome

/-- Errors a Python run of `validate_schema` can raise: the malformed-schema
`ValueError`s of validators.py, or a crash of another class (e.g. iterating a
non-list, or taking `.keys()` of a non-dict). -/
inductive VErr where
  | valueError (msg : String) : VErr
  | typeError : VErr
deriving DecidableEq, Repr

/-- Check the column descriptors one by one, as the `for col in s["columns"]`
loop of validators.py does; the first bad entry raises. -/
def validateCols : List J → Except VErr Unit
  | [] => .ok ()
  | (.jobj o) :: rest =>
      if hasKey o "name" && hasKey o "type" then validateCols rest
      else .error (.valueError "Bad column entry")
  | _ :: _ => .error .typeError

/-- validators.validate_schema: fail when the document lacks a `columns` key or
some column descriptor lacks `name` or `type`.  The function only reads the
document (it returns `None` in Python); it never modifies its input. -/
def validate_schema (s : List (String × J)) : Except VErr Unit :=
  match jlookup s "columns" with
  | none => .error (.valueError "Schema missing columns")
  | some (.jarr cols) => validateCols cols
  | some _ => .error .typeError

/-- Well-shaped documents: if a `columns` key is present it holds a list of
objects.  (On other documents the Python code raises `TypeError` or
`AttributeError` rather than the malformed-schema `ValueError`.) -/
def docWellShaped (s : List (String × J)) : Bool :=
  match jlookup s "columns" with
  | none => true
  | some (.jarr cols) => cols.all (fun c => match c with | .jobj _ => true | _ => false)
  | some _ => false

/-- pandas `Series.dropna()` on a column of cells. -/
def dropna (s : List Val) : List Val :=
  s.filter (fun v => v ≠ Val.null)

/-- profiler._infer_col_type: classify a column into numeric | datetime |
categorical | text.  `sample` stands for `s_nonan.sample(min(20, len(s_nonan)),
random_state=42)`, the fixed-seed sample the source draws (twice, with the same
seed, hence the same sample for the numeric and the datetime probe). -/
def _infer_col_type (s : List Val) (sample : List Val) : String :=
  let s_nonan := dropna s
  if s_nonan.isEmpty then "text"
  else if sample.all parsesNum then "numeric"
  else if (4 / 5 : ℚ) < ((sample.countP parsesDate : ℚ) / (sample.length : ℚ)) then "datetime"
  else if ((s_nonan.dedup.length : ℚ) / (s_nonan.length : ℚ)) < 2 / 5 then "categorical"
  else "text"

/-- Insert one count pair into a count-descending list, keeping earlier
entries first on ties (stable). -/
def insertByCount (p : Val × ℕ) : List (Val × ℕ) → List (Val × ℕ)
  | [] => [p]
  | q :: rest => if q.2 < p.2 then p :: q :: rest else q :: insertByCount p rest

/-- Stable insertion sort by descending count, standing for the descending
sort pandas value_counts applies. -/
def sortByCountDesc : List (Val × ℕ) → List (Val × ℕ)
  | [] => []
  | p :: rest => insertByCount p (sortByCountDesc rest)

/-- pandas `Series.value_counts(dropna=True)`: occurrence counts of the
distinct non-missing values, sorted by descending count. -/
def value_counts (s : List Val) : List (Val × ℕ) :=
  let nn := dropna s
  sortByCountDesc (nn.dedup.map (fun v => (v, nn.count v)))

/-- pandas `Series.mean()` over the non-NaN entries (NaN when all are NaN). -/
def qmean? (xs : List ℚ) : Option ℚ :=
  if xs.isEmpty then none else some (xs.sum / (xs.length : ℚ))

/-- Square of pandas `Series.std(ddof=0)`: the population variance, dividing by
N (NaN when all entries are NaN). -/
def popVar? (xs : List ℚ) : Option ℚ :=
  match qmean? xs with
  | none => none
  | some m => some ((xs.map (fun x => (x - m) ^ 2)).sum / (xs.length : ℚ))

/-- Emit an optional rational as a JSON number (NaN becomes `jnull`). -/
def jq : Option ℚ → J
  | some q => .jnum q
  | none => .jnull

/-- Emit an optional day number as an ISO date string (NaT becomes `jnull`). -/
def jd : Option ℤ → J
  | some d => .jdate d
  | none => .jnull

/-- Profiler._profile_column: the column descriptor dict for one column.
`name` is the column label, `s` the full (cleaned) column including missing
values, and `sample` the fixed-seed sample of the non-missing values handed to
`_infer_col_type`.  Keys added by `out.update(...)` follow the three base keys,
in source order. -/
def _profile_column (name : String) (s : List Val) (sample : List Val) :
    List (String × J) :=
  let col_type := _infer_col_type s sample
  let base : List (String × J) :=
    [("name", .jstr name), ("type", .jstr col_type),
     ("nullable", .jbool (s.any (fun v => v = Val.null)))]
  if col_type = "numeric" then
    let s_num := s.filterMap toNum?
    base ++
      [("mean", jq (qmean? s_num)),
       ("std", match popVar? s_num with | some v => .jsqrt v | none => .jnull),
       ("min", jq s_num.min?),
       ("max", jq s_num.max?)]
  else if col_type = "categorical" then
    let vc := value_counts s
    base ++
      [("unique", .jnum (vc.length : ℚ)),
       ("sample_values",
        .jarr ((vc.take 20).map
          (fun p => .jarr [valToJ p.1, .jnum ((p.2 : ℚ) / (s.length : ℚ))])))]
  else if col_type = "datetime" then
    let s_dt := s.filterMap toDateV?
    base ++ [("min", jd s_dt.min?), ("max", jd s_dt.max?)]
  else
    base

/-- Profiler.profile: the schema document for a cleaned dataframe, given
column-major as labelled cell lists.  `sampleOf` models the fixed-seed
`Series.sample` oracle applied to each column's non-missing values; row
cleaning (Profiler._clean) precedes this call and only drops rows, so the
theorem universe of cleaned dataframes is the universe of all dataframes. -/
def profile (df : List (String × List Val)) (sampleOf : List Val → List Val) :
    List (String × J) :=
  [("columns", .jarr (df.map (fun c => .jobj (_profile_column c.1 c.2 (sampleOf (dropna c.2)))))),
   ("num_rows", .jnum (((df.head?.map (fun c => c.2.length)).getD 0 : ℕ) : ℚ))]

/-- Python `str()` of a JSON value (as `_as_list` applies it). -/
def jToStr : J → String
  | .jnull => "None"
  | .jbool b => if b then "True" else "False"
  | .jnum q => toString q
  | .jsqrt q => toString q
  | .jdate d => toString d
  | .jstr s => s
  | .jarr _ => "[...]"
  | .jobj _ => "{...}"

/-- Python `x[0]` on a JSON list entry (only reached on non-empty list
entries in the shapes the profiler emits). -/
def jhead : J → J
  | .jarr (z :: _) => z
  | _ => .jnull

/-- Read a rational out of a looked-up JSON field. -/
def getQ : Option J → Option ℚ
  | some (.jnum q) => some q
  | _ => none

/-- Result of `pd.to_datetime` on a looked-up JSON field, as a day number:
`none` models both a missing key (KeyError) and an unparsable value. -/
def toDateJ? : Option J → Option ℤ
  | some (.jdate d) => some d
  | _ => none

/-- Python `c.get("unique", 5)` and `c.get("unique", 1)` read a non-negative
integer with a default; faithful for the absent and natural-number cases the
schema format produces. -/
def getUnique (v : Option J) (dflt : ℕ) : ℕ :=
  match v with
  | some (.jnum q) => q.num.toNat
  | _ => dflt

/-- pandas `pd.date_range(start, end, periods=n)` with day-resolution rational
timestamps: the i-th point is start + i·(end−start)/(n−1); [start] for n = 1,
[] for n = 0. -/
def date_range (start endv : ℚ) (n : ℕ) : List ℚ :=
  (List.range n).map (fun (i : ℕ) => start + ((endv - start) * (i : ℚ)) / ((n : ℚ) - 1))

namespace Synth

/-- synthesizer._as_list: [] for a falsy argument; otherwise, when the first
entry is a list, `str(x[0])` of every entry, else `str(x)` of every entry. -/
def _as_list : Option J → List String
  | none => []
  | some (.jarr []) => []
  | some (.jarr (v0 :: vrest)) =>
      match v0 with
      | .jarr _ => (v0 :: vrest).map (fun x => jToStr (jhead x))
      | _ => (v0 :: vrest).map jToStr
  | some _ => []

/-- synthesizer._sample_numeric: read min, max, mean (KeyError or a non-number
gives `none`), set sigma = max((max−min)/6, 1e-9), draw normal(mean, sigma)
samples — modelled as mean + sigma·z over the standard-normal draws z — and
clip each into [min, max] (np.clip computes min(max(x, low), high)). -/
def sample_numeric (c : List (String × J)) (z : List ℚ) : Option (List ℚ) :=
  match getQ (jlookup c "min"), getQ (jlookup c "max"), getQ (jlookup c "mean") with
  | some low, some high, some mu =>
      let sigma := max ((high - low) / 6) (1 / 1000000000)
      some ((z.map (fun t => mu + sigma * t)).map (fun x => min high (max x low)))
  | _, _, _ => none

/-- synthesizer._sample_categorical: population = `_as_list(sample_values)`,
falling back (Python `or`) to `cat0 … cat{unique−1}` with `unique` defaulting
to 5; then `random.choices(cats, k=n)`, modelled by the uniform index draws
(each below the population size, as `random.choices` guarantees).  An empty
population with at least one draw raises IndexError, modelled as `none`. -/
def sample_categorical (c : List (String × J)) (draws : List ℕ) :
    Option (List String) :=
  let fromSV := _as_list (jlookup c "sample_values")
  let cats := if fromSV.isEmpty then
      (List.range (getUnique (jlookup c "unique") 5)).map (fun i => "cat" ++ toString i)
    else fromSV
  if cats.isEmpty && !draws.isEmpty then none
  else some (draws.map (fun i => cats.getD i ""))

/-- Day number of 2000-01-01 (days since 1970-01-01), the constant fallback
date of synthesizer._sample_datetime. -/
def default_date : ℤ := 10957

/-- synthesizer._sample_datetime: parse min and max, spread n timestamps
evenly between them (pd.date_range periods=n) and format each as YYYY-MM-DD —
modelled as truncation of the day-resolution timestamp to a whole day.  Any
failure (missing key, unparsable value) is caught and yields the constant
default date for all n rows. -/
def sample_datetime (c : List (String × J)) (n : ℕ) : List ℤ :=
  match toDateJ? (jlookup c "min"), toDateJ? (jlookup c "max") with
  | some s, some e => (date_range (s : ℚ) (e : ℚ) n).map (fun t => ⌊t⌋)
  | _, _ => List.replicate n default_date

/-- synthesizer._sample_text: `random.choices` over `_as_list(sample_values)`,
falling back to the singleton ["lorem ipsum"]. -/
def sample_text (c : List (String × J)) (draws : List ℕ) : List String :=
  let vals := let l := _as_list (jlookup c "sample_values")
              if l.isEmpty then ["lorem ipsum"] else l
  draws.map (fun i => vals.getD i "")

end Synth

namespace Gen

/-- generator._sample_numeric: same formula as the synthesizer's — sigma =
max((max−min)/6, 1e-9), normal(mean, sigma) draws clipped into [min, max]. -/
def sample_numeric (c : List (String × J)) (z : List ℚ) : Option (List ℚ) :=
  match getQ (jlookup c "min"), getQ (jlookup c "max"), getQ (jlookup c "mean") with
  | some low, some high, some mu =>
      let sigma := max ((high - low) / 6) (1 / 1000000000)
      some ((z.map (fun t => mu + sigma * t)).map (fun x => min high (max x low)))
  | _, _, _ => none

/-- generator._sample_datetime: like the synthesizer's but with no try/except —
an unparsable or missing min/max raises, modelled as `none`. -/
def sample_datetime (c : List (String × J)) (n : ℕ) : Option (List ℤ) :=
  match toDateJ? (jlookup c "min"), toDateJ? (jlookup c "max") with
  | some s, some e => some ((date_range (s : ℚ) (e : ℚ) n).map (fun t => ⌊t⌋))
  | _, _ => none

end Gen

/-- Data held by one generated column, tagged by the sampler that produced
it. -/
inductive ColData where
  | numericD (xs : List ℚ) : ColData
  | datetimeD (ds : List ℤ) : ColData
  | textD (ts : List String) : ColData
  | categoricalD (cs : List String) : ColData
deriving DecidableEq, Repr

/-- Python dict insertion `d[k] = v`: replace in place when the key exists,
append otherwise (insertion-order semantics of Python dicts). -/
def dictInsert (d : List (String × ColData)) (k : String) (v : ColData) :
    List (String × ColData) :=
  if d.any (fun p => p.1 = k) then
    d.map (fun p => if p.1 = k then (k, v) else p)
  else d ++ [(k, v)]

/-- Python `==` between a JSON value and a string literal: true only for equal
strings, false for every non-string value. -/
def isStr (t : J) (s : String) : Bool :=
  match t with
  | .jstr x => x = s
  | _ => false

/-- Column loop of synthesizer.generate_rows.  `rows` is the requested row
count, `z i` the standard-normal draws and `g i` the index draws consumed by
column i.  A missing `name`/`type` key, a non-string name, or a sampler crash
propagates as `none`. -/
def generateCols (rows : ℕ) (z : ℕ → List ℚ) (g : ℕ → List ℕ) :
    List J → ℕ → List (String × ColData) → Option (List (String × ColData))
  | [], _, acc => some acc
  | c :: rest, i, acc =>
      match c with
      | .jobj o =>
          match jlookup o "name", jlookup o "type" with
          | some (.jstr nm), some ty =>
              let data? : Option ColData :=
                if isStr ty "numeric" then
                  (Synth.sample_numeric o (z i)).map ColData.numericD
                else if isStr ty "datetime" then
                  some (ColData.datetimeD (Synth.sample_datetime o rows))
                else if isStr ty "text" then
                  some (ColData.textD (Synth.sample_text o (g i)))
                else
                  (Synth.sample_categorical o (g i)).map ColData.categoricalD
              match data? with
              | some dat => generateCols rows z g rest (i + 1) (dictInsert acc nm dat)
              | none => none
          | _, _ => none
      | _ => none

/-- synthesizer.generate_rows: build the `cols` dict column by column over
`schema["columns"]` and return it as the dataframe's labelled columns, in dict
insertion order.  Dispatch is on the `type` string: numeric, datetime and text
have dedicated samplers; every other type value falls to the categorical
sampler. -/
def generate_rows (schema : List (String × J)) (rows : ℕ)
    (z : ℕ → List ℚ) (g : ℕ → List ℕ) : Option (List (String × ColData)) :=
  match jlookup schema "columns" with
  | some (.jarr cols) => generateCols rows z g cols 0 []
  | _ => none

/-- The `name` entry of a column descriptor, when it is a string (the only
case in which the embedded generate_rows proceeds). -/
def colName? : J → Option String
  | .jobj o =>
      match jlookup o "name" with
      | some (.jstr nm) => some nm
      | _ => none
  | _ => none

/-- The names of a descriptor list, when every descriptor has a string name. -/
def colNames? : List J → Option (List String)
  | [] => some []
  | c :: rest =>
      match colName? c, colNames? rest with
      | some nm, some nms => some (nm :: nms)
      | _, _ => none

/-- Key sequence of a Python dict after inserting `nms` in order into a dict
whose keys are `ks`: an existing key keeps its position, a new key is
appended. -/
def pyKeys (ks nms : List String) : List String :=
  nms.foldl (fun acc nm => if nm ∈ acc then acc else acc ++ [nm]) ks

instance : Std.Antisymm (fun a b : ℚ => a ≤ b) where
  antisymm h1 h2 := le_antisymm h1 h2

/-! Theorems. -/

theorem profile_column_hasKey_name (name : String) (s sample : List Val) :
    hasKey (_profile_column name s sample) "name" = true := by
  unfold _profile_column
  dsimp only
  split
  · rfl
  split
  · rfl
  split <;> rfl

theorem profile_column_hasKey_type (name : String) (s sample : List Val) :
    hasKey (_profile_column name s sample) "type" = true := by
  unfold _profile_column
  dsimp only
  split
  · rfl
  split
  · rfl
  split <;> rfl

theorem validateCols_err (cols : List J)
    (h : ∀ c ∈ cols, ∃ o, c = J.jobj o) :
    (∃ m, validateCols cols = .error (.valueError m)) ↔
      ∃ o, J.jobj o ∈ cols ∧ (hasKey o "name" = false ∨ hasKey o "type" = false) := by
  induction cols with
  | nil => simp [validateCols]
  | cons c rest ih =>
      obtain ⟨o, rfl⟩ := h c (by simp)
      have hrest : ∀ x ∈ rest, ∃ o2, x = J.jobj o2 :=
        fun x hx => h x (List.mem_cons_of_mem _ hx)
      by_cases hk : (hasKey o "name" && hasKey o "type") = true
      · rw [Bool.and_eq_true] at hk
        have hstep : validateCols (J.jobj o :: rest) = validateCols rest := by
          simp [validateCols, hk.1, hk.2]
        rw [hstep, ih hrest]
        constructor
        · rintro ⟨o2, ho2, hbad⟩
          exact ⟨o2, List.mem_cons_of_mem _ ho2, hbad⟩
        · rintro ⟨o2, ho2, hbad⟩
          rcases List.mem_cons.mp ho2 with heq | hmem
          · injection heq with h2
            subst h2
            rcases hbad with hb | hb
            · rw [hk.1] at hb; cases hb
            · rw [hk.2] at hb; cases hb
          · exact ⟨o2, hmem, hbad⟩
      · have hstep : validateCols (J.jobj o :: rest) =
            .error (.valueError "Bad column entry") := by
          simp only [validateCols]
          rw [if_neg hk]
        rw [hstep]
        constructor
        · intro _
          refine ⟨o, List.mem_cons_self _ _, ?_⟩
          by_cases hn : hasKey o "name" = true
          · by_cases ht : hasKey o "type" = true
            · exact absurd (by rw [hn, ht]; rfl) hk
            · exact Or.inr (Bool.eq_false_iff.mpr ht)
          · exact Or.inl (Bool.eq_false_iff.mpr hn)
        · intro _
          exact ⟨"Bad column entry", rfl⟩

theorem validateCols_map_profile (df : List (String × List Val))
    (sampleOf : List Val → List Val) :
    validateCols (df.map
      (fun c => J.jobj (_profile_column c.1 c.2 (sampleOf (dropna c.2))))) = .ok () := by
  induction df with
  | nil => rfl
  | cons c rest ih =>
      simp only [List.map_cons, validateCols, profile_column_hasKey_name,
        profile_column_hasKey_type, Bool.and_self, if_true]
      exact ih

/-- C4: round-trip — for every input table, the schema document the Profiler
emits passes validate_schema: the document always carries a `columns` key and
every emitted column descriptor carries both `name` and `type`. -/
theorem c4_profile_then_validate_ok (df : List (String × List Val))
    (sampleOf : List Val → List Val) :
    validate_schema (profile df sampleOf) = .ok () := by
  unfold profile validate_schema
  simp only [jlookup, if_pos]
  exact validateCols_map_profile df sampleOf

/-- C7: validate_schema fails with its malformed-schema ValueError exactly when
the document lacks a `columns` key or some column descriptor lacks `name` or
`type`; in particular the empty document and a column missing `type` both
raise.  The embedded validator is a pure function of the document, so the input
is never modified. -/
theorem c7_validate_schema_error_iff (s : List (String × J))
    (hwf : docWellShaped s = true) :
    ((∃ m, validate_schema s = .error (.valueError m)) ↔
      (jlookup s "columns" = none ∨
        ∃ cols, jlookup s "columns" = some (.jarr cols) ∧
          ∃ o, J.jobj o ∈ cols ∧ (hasKey o "name" = false ∨ hasKey o "type" = false))) ∧
    validate_schema [] = .error (.valueError "Schema missing columns") ∧
    validate_schema [("columns", .jarr [.jobj [("name", .jstr "x")]])] =
      .error (.valueError "Bad column entry") := by
  refine ⟨?_, rfl, rfl⟩
  unfold docWellShaped at hwf
  unfold validate_schema
  cases hcol : jlookup s "columns" with
  | none => simp
  | some v =>
      rw [hcol] at hwf
      cases v with
      | jarr cols =>
          have hobjs : ∀ c ∈ cols, ∃ o, c = J.jobj o := by
            intro c hc
            have := List.all_eq_true.mp hwf c hc
            cases c <;> simp_all
          rw [validateCols_err cols hobjs]
          simp [hcol]
      | jnull => cases hwf
      | jbool b => cases hwf
      | jnum q => cases hwf
      | jsqrt q => cases hwf
      | jdate d => cases hwf
      | jstr t => cases hwf
      | jobj o => cases hwf

theorem c7_validate_schema_error_iff_witness :
    docWellShaped [("columns", J.jarr [J.jobj [("name", J.jstr "x")]])] = true ∧
    validate_schema [("columns", J.jarr [J.jobj [("name", J.jstr "x")]])] =
      .error (.valueError "Bad column entry") :=
  ⟨rfl, (c7_validate_schema_error_iff
    [("columns", J.jarr [J.jobj [("name", J.jstr "x")]])] rfl).2.2⟩


/-- C3: column type inference is a first-match decision chain — empty
non-missing values give text; else a fully numeric-parsing fixed-seed sample of
up to 20 non-missing values gives numeric; else a sample whose date-parsing
fraction exceeds 4/5 gives datetime; otherwise the column is categorical
exactly when the distinct/total ratio of non-missing values is strictly below
2/5, and text otherwise. -/
theorem c3_infer_col_type_chain (s : List Val) (sample : List Val)
    (_hlen : sample.length = min 20 (dropna s).length)
    (_hsub : ∀ v ∈ sample, v ∈ dropna s) :
    (dropna s = [] → _infer_col_type s sample = "text") ∧
    (dropna s ≠ [] → sample.all parsesNum = true →
      _infer_col_type s sample = "numeric") ∧
    (dropna s ≠ [] → sample.all parsesNum = false →
      (4 / 5 : ℚ) < (sample.countP parsesDate : ℚ) / (sample.length : ℚ) →
      _infer_col_type s sample = "datetime") ∧
    (dropna s ≠ [] → sample.all parsesNum = false →
      ¬((4 / 5 : ℚ) < (sample.countP parsesDate : ℚ) / (sample.length : ℚ)) →
      ((_infer_col_type s sample = "categorical" ↔
          ((dropna s).dedup.length : ℚ) / ((dropna s).length : ℚ) < 2 / 5) ∧
       (_infer_col_type s sample = "text" ↔
          ¬(((dropna s).dedup.length : ℚ) / ((dropna s).length : ℚ) < 2 / 5)))) := by
  unfold _infer_col_type
  refine ⟨?_, ?_, ?_, ?_⟩
  · intro he
    simp [he]
  · intro hne hall
    simp [List.isEmpty_iff, hne, hall]
  · intro hne hnall hdt
    simp [List.isEmpty_iff, hne, hnall, hdt]
  · intro hne hnall hndt
    constructor
    · by_cases hr : ((dropna s).dedup.length : ℚ) / ((dropna s).length : ℚ) < 2 / 5 <;>
        simp [List.isEmpty_iff, hne, hnall, hndt, hr]
    · by_cases hr : ((dropna s).dedup.length : ℚ) / ((dropna s).length : ℚ) < 2 / 5 <;>
        simp [List.isEmpty_iff, hne, hnall, hndt, hr]

theorem c3_infer_col_type_chain_witness :
    ([Val.num 1].length = min 20 (dropna [Val.num 1]).length) ∧
    (∀ v ∈ [Val.num 1], v ∈ dropna [Val.num 1]) ∧
    _infer_col_type [Val.num 1] [Val.num 1] = "numeric" :=
  ⟨by decide, by decide,
    (c3_infer_col_type_chain [Val.num 1] [Val.num 1] (by decide)
      (by decide)).2.1 (by decide) (by decide)⟩

/-- C1: the numeric sampler draws from a normal distribution with the schema's
mean and standard deviation max((max−min)/6, 1e-9) — a strictly positive sigma
— and clips every draw into [min, max]; hence for min ≤ max every produced
value lies in [min, max], for any number of rows. -/
theorem c1_sample_numeric_bounds (c : List (String × J)) (z : List ℚ)
    (low high mu : ℚ)
    (hmin : getQ (jlookup c "min") = some low)
    (hmax : getQ (jlookup c "max") = some high)
    (hmean : getQ (jlookup c "mean") = some mu)
    (hle : low ≤ high) :
    ∃ out, Synth.sample_numeric c z = some out ∧
      out.length = z.length ∧
      (∀ v ∈ out, low ≤ v ∧ v ≤ high) ∧
      out = (z.map (fun t => mu + (max ((high - low) / 6) (1 / 1000000000)) * t)).map
              (fun x => min high (max x low)) ∧
      (0 : ℚ) < max ((high - low) / 6) (1 / 1000000000) := by
  unfold Synth.sample_numeric
  rw [hmin, hmax, hmean]
  refine ⟨_, rfl, by simp, ?_, rfl, ?_⟩
  · intro v hv
    rw [List.mem_map] at hv
    obtain ⟨x, _, rfl⟩ := hv
    exact ⟨le_min hle (le_max_right x low), min_le_left _ _⟩
  · exact lt_max_of_lt_right (by norm_num)

theorem c1_sample_numeric_bounds_witness :
    getQ (jlookup [("min", J.jnum 0), ("max", J.jnum 1), ("mean", J.jnum 0)] "min") = some 0 ∧
    (0 : ℚ) ≤ 1 ∧
    (∃ out, Synth.sample_numeric
        [("min", J.jnum 0), ("max", J.jnum 1), ("mean", J.jnum 0)] [5] = some out ∧
      out.length = [(5 : ℚ)].length ∧
      (∀ v ∈ out, (0 : ℚ) ≤ v ∧ v ≤ 1) ∧
      out = ([(5 : ℚ)].map (fun t => 0 + (max ((1 - 0) / 6) (1 / 1000000000)) * t)).map
              (fun x => min 1 (max x 0)) ∧
      (0 : ℚ) < max ((1 - 0) / 6) (1 / 1000000000)) :=
  ⟨rfl, by norm_num,
    c1_sample_numeric_bounds [("min", J.jnum 0), ("max", J.jnum 1), ("mean", J.jnum 0)]
      [5] 0 1 0 rfl rfl rfl (by norm_num)⟩

/-- C10: the two bundled synthesis implementations agree — with identical
underlying draws synthesizer._sample_numeric and generator._sample_numeric
compute the same values on every column schema, and for parsable min/max
generator._sample_datetime produces exactly the date list of
synthesizer._sample_datetime. -/
theorem c10_synth_gen_agree :
    (∀ (c : List (String × J)) (z : List ℚ),
        Synth.sample_numeric c z = Gen.sample_numeric c z) ∧
    (∀ (c : List (String × J)) (n : ℕ) (d1 d2 : ℤ),
        toDateJ? (jlookup c "min") = some d1 →
        toDateJ? (jlookup c "max") = some d2 →
        Gen.sample_datetime c n = some (Synth.sample_datetime c n)) := by
  constructor
  · intro c z
    rfl
  · intro c n d1 d2 h1 h2
    unfold Gen.sample_datetime Synth.sample_datetime
    rw [h1, h2]

theorem c10_synth_gen_agree_witness :
    Synth.sample_numeric [("min", J.jnum 0), ("max", J.jnum 6), ("mean", J.jnum 3)] [1, -1]
      = Gen.sample_numeric [("min", J.jnum 0), ("max", J.jnum 6), ("mean", J.jnum 3)] [1, -1] ∧
    Gen.sample_datetime [("min", J.jdate 0), ("max", J.jdate 3)] 3
      = some (Synth.sample_datetime [("min", J.jdate 0), ("max", J.jdate 3)] 3) :=
  ⟨c10_synth_gen_agree.1 [("min", J.jnum 0), ("max", J.jnum 6), ("mean", J.jnum 3)] [1, -1],
   c10_synth_gen_agree.2 [("min", J.jdate 0), ("max", J.jdate 3)] 3 0 3 rfl rfl⟩



theorem qmin_spec (xs : List ℚ) (h : xs ≠ []) :
    ∃ m, xs.min? = some m ∧ m ∈ xs ∧ ∀ y ∈ xs, m ≤ y := by
  cases hm : xs.min? with
  | none => exact absurd (List.min?_eq_none_iff.mp hm) h
  | some m =>
      have := List.min?_eq_some_iff (fun a => le_refl a) (fun a b => min_choice a b)
        (fun a b c => le_min_iff) |>.mp hm
      exact ⟨m, rfl, this.1, this.2⟩

theorem qmax_spec (xs : List ℚ) (h : xs ≠ []) :
    ∃ m, xs.max? = some m ∧ m ∈ xs ∧ ∀ y ∈ xs, y ≤ m := by
  cases hm : xs.max? with
  | none => exact absurd (List.max?_eq_none_iff.mp hm) h
  | some m =>
      have := List.max?_eq_some_iff (fun a => le_refl a) (fun a b => max_choice a b)
        (fun a b c => max_le_iff) |>.mp hm
      exact ⟨m, rfl, this.1, this.2⟩

theorem infer_numeric_elim (s sample : List Val)
    (h : _infer_col_type s sample = "numeric") :
    (dropna s).isEmpty = false ∧ sample.all parsesNum = true := by
  unfold _infer_col_type at h
  by_cases he : (dropna s).isEmpty
  · rw [if_pos he] at h
    simp at h
  · by_cases ha : sample.all parsesNum
    · exact ⟨Bool.eq_false_iff.mpr he, ha⟩
    · rw [if_neg he, if_neg ha] at h
      exfalso
      split at h
      · simp at h
      · split at h <;> simp at h

theorem coerced_nonempty (s sample : List Val)
    (hlen : sample.length = min 20 (dropna s).length)
    (hsub : ∀ v ∈ sample, v ∈ dropna s)
    (hne : (dropna s).isEmpty = false)
    (hall : sample.all parsesNum = true) :
    s.filterMap toNum? ≠ [] := by
  have hdlen : 0 < (dropna s).length := by
    cases hd : dropna s with
    | nil => rw [hd] at hne; simp at hne
    | cons a l => simp
  have hsamp : sample ≠ [] := by
    intro hnil
    rw [hnil] at hlen
    simp at hlen
    omega
  obtain ⟨v, hv⟩ := List.exists_mem_of_ne_nil sample hsamp
  have hpn := List.all_eq_true.mp hall v hv
  cases v with
  | num q =>
      intro hemp
      have hmem : Val.num q ∈ s := (List.mem_filter.mp (hsub _ hv)).1
      have hq : q ∈ s.filterMap toNum? := List.mem_filterMap.mpr ⟨Val.num q, hmem, rfl⟩
      rw [hemp] at hq
      cases hq
  | null => simp [parsesNum] at hpn
  | date d => simp [parsesNum] at hpn
  | str t => simp [parsesNum] at hpn

/-- C8: a column classified numeric is profiled over the full column coerced to
numbers (non-parsing cells dropped): the recorded mean is the sum over the
count, the recorded std is the square root of the population variance (sum of
squared deviations divided by N, not N−1), and the recorded min and max are a
least and a greatest coerced value. -/
theorem c8_numeric_profile_stats (name : String) (s sample : List Val)
    (hlen : sample.length = min 20 (dropna s).length)
    (hsub : ∀ v ∈ sample, v ∈ dropna s)
    (hnum : _infer_col_type s sample = "numeric") :
    jlookup (_profile_column name s sample) "type" = some (.jstr "numeric") ∧
    s.filterMap toNum? ≠ [] ∧
    jlookup (_profile_column name s sample) "mean" =
      some (.jnum ((s.filterMap toNum?).sum / ((s.filterMap toNum?).length : ℚ))) ∧
    jlookup (_profile_column name s sample) "std" =
      some (.jsqrt (((s.filterMap toNum?).map
        (fun x => (x - (s.filterMap toNum?).sum / ((s.filterMap toNum?).length : ℚ)) ^ 2)).sum
          / ((s.filterMap toNum?).length : ℚ))) ∧
    (∃ m, jlookup (_profile_column name s sample) "min" = some (.jnum m) ∧
      m ∈ s.filterMap toNum? ∧ ∀ y ∈ s.filterMap toNum?, m ≤ y) ∧
    (∃ m, jlookup (_profile_column name s sample) "max" = some (.jnum m) ∧
      m ∈ s.filterMap toNum? ∧ ∀ y ∈ s.filterMap toNum?, y ≤ m) := by
  obtain ⟨hne, hall⟩ := infer_numeric_elim s sample hnum
  have hxs : s.filterMap toNum? ≠ [] := coerced_nonempty s sample hlen hsub hne hall
  have hie : (s.filterMap toNum?).isEmpty = false :=
    Bool.eq_false_iff.mpr (fun h2 => hxs (List.isEmpty_iff.mp h2))
  have hmean : qmean? (s.filterMap toNum?) =
      some ((s.filterMap toNum?).sum / ((s.filterMap toNum?).length : ℚ)) := by
    unfold qmean?
    rw [hie]
    rfl
  have hcol : _profile_column name s sample =
      [("name", .jstr name), ("type", .jstr "numeric"),
       ("nullable", .jbool (s.any (fun v => v = Val.null))),
       ("mean", jq (qmean? (s.filterMap toNum?))),
       ("std", match popVar? (s.filterMap toNum?) with
               | some v => .jsqrt v | none => .jnull),
       ("min", jq (s.filterMap toNum?).min?),
       ("max", jq (s.filterMap toNum?).max?)] := by
    unfold _profile_column
    dsimp only
    rw [hnum]
    rfl
  rw [hcol]
  refine ⟨rfl, hxs, ?_, ?_, ?_, ?_⟩
  · simp [jlookup, hmean, jq]
  · have hvar : popVar? (s.filterMap toNum?) =
        some (((s.filterMap toNum?).map
          (fun x => (x - (s.filterMap toNum?).sum / ((s.filterMap toNum?).length : ℚ)) ^ 2)).sum
            / ((s.filterMap toNum?).length : ℚ)) := by
      unfold popVar?
      rw [hmean]
    simp [jlookup, hvar]
  · obtain ⟨m, hm, hmem, hleast⟩ := qmin_spec (s.filterMap toNum?) hxs
    exact ⟨m, by simp [jlookup, hm, jq], hmem, hleast⟩
  · obtain ⟨m, hm, hmem, hgreat⟩ := qmax_spec (s.filterMap toNum?) hxs
    exact ⟨m, by simp [jlookup, hm, jq], hmem, hgreat⟩

theorem c8_numeric_profile_stats_witness :
    ([Val.num 1, Val.num 2, Val.num 3].length =
      min 20 (dropna [Val.num 1, Val.num 2, Val.num 3]).length) ∧
    _infer_col_type [Val.num 1, Val.num 2, Val.num 3]
      [Val.num 1, Val.num 2, Val.num 3] = "numeric" ∧
    (jlookup (_profile_column "x" [Val.num 1, Val.num 2, Val.num 3]
        [Val.num 1, Val.num 2, Val.num 3]) "type" = some (.jstr "numeric") ∧
      [Val.num 1, Val.num 2, Val.num 3].filterMap toNum? ≠ [] ∧
      jlookup (_profile_column "x" [Val.num 1, Val.num 2, Val.num 3]
        [Val.num 1, Val.num 2, Val.num 3]) "mean" =
        some (.jnum (([Val.num 1, Val.num 2, Val.num 3].filterMap toNum?).sum /
          (([Val.num 1, Val.num 2, Val.num 3].filterMap toNum?).length : ℚ))) ∧
      jlookup (_profile_column "x" [Val.num 1, Val.num 2, Val.num 3]
        [Val.num 1, Val.num 2, Val.num 3]) "std" =
        some (.jsqrt ((([Val.num 1, Val.num 2, Val.num 3].filterMap toNum?).map
          (fun x => (x - ([Val.num 1, Val.num 2, Val.num 3].filterMap toNum?).sum /
            (([Val.num 1, Val.num 2, Val.num 3].filterMap toNum?).length : ℚ)) ^ 2)).sum
              / (([Val.num 1, Val.num 2, Val.num 3].filterMap toNum?).length : ℚ))) ∧
      (∃ m, jlookup (_profile_column "x" [Val.num 1, Val.num 2, Val.num 3]
          [Val.num 1, Val.num 2, Val.num 3]) "min" = some (.jnum m) ∧
        m ∈ [Val.num 1, Val.num 2, Val.num 3].filterMap toNum? ∧
        ∀ y ∈ [Val.num 1, Val.num 2, Val.num 3].filterMap toNum?, m ≤ y) ∧
      (∃ m, jlookup (_profile_column "x" [Val.num 1, Val.num 2, Val.num 3]
          [Val.num 1, Val.num 2, Val.num 3]) "max" = some (.jnum m) ∧
        m ∈ [Val.num 1, Val.num 2, Val.num 3].filterMap toNum? ∧
        ∀ y ∈ [Val.num 1, Val.num 2, Val.num 3].filterMap toNum?, y ≤ m)) ∧
    ([Val.num 1, Val.num 2, Val.num 3].filterMap toNum?).min? = some 1 ∧
    ([Val.num 1, Val.num 2, Val.num 3].filterMap toNum?).max? = some 3 ∧
    qmean? ([Val.num 1, Val.num 2, Val.num 3].filterMap toNum?) = some 2 :=
  ⟨by decide, rfl,
    c8_numeric_profile_stats "x" [Val.num 1, Val.num 2, Val.num 3]
      [Val.num 1, Val.num 2, Val.num 3] (by decide) (by decide) rfl,
    by decide, by decide, by
      have h : [Val.num 1, Val.num 2, Val.num 3].filterMap toNum? = [1, 2, 3] := by decide
      rw [h]
      norm_num [qmean?]⟩



theorem mem_insertByCount (a p : Val × ℕ) (l : List (Val × ℕ)) :
    a ∈ insertByCount p l ↔ a = p ∨ a ∈ l := by
  induction l with
  | nil => simp [insertByCount]
  | cons q rest ih =>
      unfold insertByCount
      by_cases h : q.2 < p.2
      · simp [h]
      · simp [h, ih]
        tauto

theorem mem_sortByCountDesc (a : Val × ℕ) (l : List (Val × ℕ)) :
    a ∈ sortByCountDesc l ↔ a ∈ l := by
  induction l with
  | nil => simp [sortByCountDesc]
  | cons p rest ih => simp [sortByCountDesc, mem_insertByCount, ih]

/-- C2 (amended): each frequency the profiler stores in sample_values for a
categorical column equals that value's occurrence count among non-missing
values divided by the TOTAL number of rows of the cleaned column, missing
values included — the source divides by len(s), not by the non-missing count;
on a column with no missing values the two denominators coincide, since
dropping missing values then changes nothing. -/
theorem c2_categorical_freq_over_total (name : String) (s sample : List Val)
    (hcat : _infer_col_type s sample = "categorical") :
    (∃ sv, jlookup (_profile_column name s sample) "sample_values" = some (.jarr sv) ∧
      ∀ e ∈ sv, ∃ v, v ∈ dropna s ∧
        e = .jarr [valToJ v, .jnum (((dropna s).count v : ℚ) / (s.length : ℚ))]) ∧
    (s.count Val.null = 0 → dropna s = s) := by
  have hcol : _profile_column name s sample =
      [("name", .jstr name), ("type", .jstr "categorical"),
       ("nullable", .jbool (s.any (fun v => v = Val.null))),
       ("unique", .jnum ((value_counts s).length : ℚ)),
       ("sample_values", .jarr (((value_counts s).take 20).map
         (fun p => .jarr [valToJ p.1, .jnum ((p.2 : ℚ) / (s.length : ℚ))])))] := by
    unfold _profile_column
    dsimp only
    rw [hcat]
    rfl
  constructor
  · refine ⟨_, by rw [hcol]; rfl, ?_⟩
    intro e he
    rw [List.mem_map] at he
    obtain ⟨p, hp, rfl⟩ := he
    have hpvc : p ∈ value_counts s := List.mem_of_mem_take hp
    unfold value_counts at hpvc
    rw [mem_sortByCountDesc] at hpvc
    rw [List.mem_map] at hpvc
    obtain ⟨v, hv, rfl⟩ := hpvc
    exact ⟨v, List.mem_dedup.mp hv, rfl⟩
  · intro h0
    apply List.filter_eq_self.mpr
    intro a ha
    have : Val.null ∉ s := List.count_eq_zero.mp h0
    simp only [ne_eq, decide_eq_true_eq]
    intro heq
    rw [heq] at ha
    exact this ha

/-- C2 counterexample: on the column [a, a, a, missing] — classified
categorical, with its fixed-seed sample necessarily [a, a, a] — the stored
frequency of "a" is 3/4 (count over total rows including the missing one),
not the claimed 3/3 over the non-missing rows. -/
theorem c2_categorical_freq_counterexample :
    ([Val.str "a", Val.str "a", Val.str "a"].length =
      min 20 (dropna [Val.str "a", Val.str "a", Val.str "a", Val.null]).length) ∧
    (∀ v ∈ [Val.str "a", Val.str "a", Val.str "a"],
      v ∈ dropna [Val.str "a", Val.str "a", Val.str "a", Val.null]) ∧
    _infer_col_type [Val.str "a", Val.str "a", Val.str "a", Val.null]
      [Val.str "a", Val.str "a", Val.str "a"] = "categorical" ∧
    (dropna [Val.str "a", Val.str "a", Val.str "a", Val.null]).count (Val.str "a") = 3 ∧
    (dropna [Val.str "a", Val.str "a", Val.str "a", Val.null]).length = 3 ∧
    [Val.str "a", Val.str "a", Val.str "a", Val.null].length = 4 ∧
    jlookup (_profile_column "c" [Val.str "a", Val.str "a", Val.str "a", Val.null]
        [Val.str "a", Val.str "a", Val.str "a"]) "sample_values" =
      some (.jarr [.jarr [.jstr "a", .jnum (((3 : ℕ) : ℚ) / ((4 : ℕ) : ℚ))]]) ∧
    (((3 : ℕ) : ℚ) / ((4 : ℕ) : ℚ)) ≠ (((3 : ℕ) : ℚ) / ((3 : ℕ) : ℚ)) := by
  have hcat : _infer_col_type [Val.str "a", Val.str "a", Val.str "a", Val.null]
      [Val.str "a", Val.str "a", Val.str "a"] = "categorical" := by
    unfold _infer_col_type
    dsimp only
    have h1 : dropna [Val.str "a", Val.str "a", Val.str "a", Val.null] =
        [Val.str "a", Val.str "a", Val.str "a"] := by decide
    rw [h1]
    norm_num [parsesNum, parsesDate, List.dedup]
  refine ⟨by decide, by decide, hcat, by decide, by decide, by decide, ?_, by norm_num⟩
  unfold _profile_column
  dsimp only
  rw [hcat]
  have h2 : value_counts [Val.str "a", Val.str "a", Val.str "a", Val.null] =
      [(Val.str "a", 3)] := by decide
  simp [jlookup, h2, valToJ]



theorem date_range_getD (a b : ℚ) (n i : ℕ) (h : i < n) :
    (date_range a b n).getD i 0 = a + ((b - a) * (i : ℚ)) / ((n : ℚ) - 1) := by
  unfold date_range
  rw [List.getD_eq_getElem?_getD, List.getElem?_map, List.getElem?_range h]
  rfl

theorem date_range_length (a b : ℚ) (n : ℕ) : (date_range a b n).length = n := by
  unfold date_range
  simp

/-- C5 (amended): for a datetime schema whose min and max parse as the whole
calendar days d1 and d2 and any N ≥ 2, the synthesizer spreads N timestamps
evenly from min to max — consecutive underlying timestamps always differ by
(d2 − d1)/(N − 1) — and formats each as YYYY-MM-DD, i.e. truncates it to a
whole day; the first output date equals min and the last equals max, but the
truncated output dates themselves need not be evenly spaced.  If min or max is
missing or unparsable, all N rows receive the constant default date
2000-01-01. -/
theorem c5_sample_datetime_spread (c : List (String × J)) (n : ℕ) (d1 d2 : ℤ)
    (hmin : jlookup c "min" = some (.jdate d1))
    (hmax : jlookup c "max" = some (.jdate d2))
    (hn : 2 ≤ n) :
    Synth.sample_datetime c n =
      (date_range (d1 : ℚ) (d2 : ℚ) n).map (fun t => ⌊t⌋) ∧
    (Synth.sample_datetime c n).length = n ∧
    (Synth.sample_datetime c n).head? = some d1 ∧
    (Synth.sample_datetime c n).getLast? = some d2 ∧
    (∀ i : ℕ, i + 1 < n →
      (date_range (d1 : ℚ) (d2 : ℚ) n).getD (i + 1) 0 -
        (date_range (d1 : ℚ) (d2 : ℚ) n).getD i 0 =
          ((d2 : ℚ) - (d1 : ℚ)) / ((n : ℚ) - 1)) ∧
    (∀ (c2 : List (String × J)) (m : ℕ),
      toDateJ? (jlookup c2 "min") = none ∨ toDateJ? (jlookup c2 "max") = none →
      Synth.sample_datetime c2 m = List.replicate m Synth.default_date) := by
  have hout : Synth.sample_datetime c n =
      (date_range (d1 : ℚ) (d2 : ℚ) n).map (fun t => ⌊t⌋) := by
    unfold Synth.sample_datetime
    rw [show toDateJ? (jlookup c "min") = some d1 from by rw [hmin]; rfl,
        show toDateJ? (jlookup c "max") = some d2 from by rw [hmax]; rfl]
  have hlen : (date_range (d1 : ℚ) (d2 : ℚ) n).length = n := date_range_length _ _ _
  have hn1 : ((n : ℚ) - 1) ≠ 0 := by
    have h2 : (2 : ℚ) ≤ (n : ℚ) := by exact_mod_cast hn
    intro h0
    rw [sub_eq_zero] at h0
    rw [h0] at h2
    norm_num at h2
  refine ⟨hout, by rw [hout]; simp [hlen], ?_, ?_, ?_, ?_⟩
  · rw [hout, List.head?_eq_getElem?]
    unfold date_range
    rw [List.getElem?_map, List.getElem?_map, List.getElem?_range (by omega : 0 < n)]
    simp
  · rw [hout, List.getLast?_eq_getElem?]
    have hlm : ((date_range (d1 : ℚ) (d2 : ℚ) n).map (fun t => ⌊t⌋)).length = n := by
      simp [hlen]
    rw [hlm]
    unfold date_range
    rw [List.getElem?_map, List.getElem?_map, List.getElem?_range (by omega : n - 1 < n)]
    have hcast : ((n - 1 : ℕ) : ℚ) = (n : ℚ) - 1 := by
      have : 1 ≤ n := by omega
      push_cast [this]
      ring
    have hval : (d1 : ℚ) + (((d2 : ℚ) - (d1 : ℚ)) * ((n - 1 : ℕ) : ℚ)) / ((n : ℚ) - 1)
        = (d2 : ℚ) := by
      rw [hcast, mul_div_assoc, div_self hn1, mul_one]
      ring
    simp only [Option.map_some']
    rw [hval]
    rw [Int.floor_intCast]
  · intro i hi
    rw [date_range_getD _ _ _ _ hi, date_range_getD _ _ _ _ (by omega : i < n)]
    push_cast
    rw [add_sub_add_left_eq_sub, div_sub_div_same]
    congr 1
    ring
  · intro c2 m hm
    unfold Synth.sample_datetime
    rcases hm with hm | hm
    · rw [hm]
    · rw [hm]
      cases toDateJ? (jlookup c2 "min") <;> rfl

/-- C5 counterexample: with min = day 0, max = day 3 and N = 3 the synthesized
date list is [day 0, day 1, day 3] — first equals min and last equals max, but
the consecutive gaps of the output dates are 1 day then 2 days, so the
synthesized dates themselves are not evenly spaced (the underlying timestamps
0, 1.5, 3 are; truncation to whole days breaks the even spacing). -/
theorem c5_sample_datetime_counterexample :
    Synth.sample_datetime [("min", J.jdate 0), ("max", J.jdate 3)] 3 = [0, 1, 3] ∧
    ((1 : ℤ) - 0 ≠ 3 - 1) := by
  constructor
  · have hout : Synth.sample_datetime [("min", J.jdate 0), ("max", J.jdate 3)] 3 =
        (date_range ((0 : ℤ) : ℚ) ((3 : ℤ) : ℚ) 3).map (fun t => ⌊t⌋) := rfl
    rw [hout]
    have h : date_range ((0 : ℤ) : ℚ) ((3 : ℤ) : ℚ) 3 = [0, 3 / 2, 3] := by
      unfold date_range
      norm_num [List.range_succ]
    rw [h]
    simp only [List.map_cons, List.map_nil]
    norm_num
  · decide



theorem c5_sample_datetime_spread_witness :
    Synth.sample_datetime [("min", J.jdate 0), ("max", J.jdate 4)] 3 =
      (date_range ((0 : ℤ) : ℚ) ((4 : ℤ) : ℚ) 3).map (fun t => ⌊t⌋) ∧
    (Synth.sample_datetime [("min", J.jdate 0), ("max", J.jdate 4)] 3).length = 3 ∧
    (Synth.sample_datetime [("min", J.jdate 0), ("max", J.jdate 4)] 3).head? =
      some ((0 : ℤ)) ∧
    (Synth.sample_datetime [("min", J.jdate 0), ("max", J.jdate 4)] 3).getLast? =
      some ((4 : ℤ)) ∧
    (∀ i : ℕ, i + 1 < 3 →
      (date_range ((0 : ℤ) : ℚ) ((4 : ℤ) : ℚ) 3).getD (i + 1) 0 -
        (date_range ((0 : ℤ) : ℚ) ((4 : ℤ) : ℚ) 3).getD i 0 =
          (((4 : ℤ) : ℚ) - ((0 : ℤ) : ℚ)) / (((3 : ℕ) : ℚ) - 1)) ∧
    (∀ (c2 : List (String × J)) (m : ℕ),
      toDateJ? (jlookup c2 "min") = none ∨ toDateJ? (jlookup c2 "max") = none →
      Synth.sample_datetime c2 m = List.replicate m Synth.default_date) :=
  c5_sample_datetime_spread [("min", J.jdate 0), ("max", J.jdate 4)] 3 0 4 rfl rfl
    (by norm_num)

theorem as_list_pairs (sv : List J) (hne : sv ≠ [])
    (hshape : ∀ e ∈ sv, ∃ v f, e = J.jarr [v, f]) :
    Synth._as_list (some (.jarr sv)) = sv.map (fun e => jToStr (jhead e)) := by
  cases sv with
  | nil => cases hne rfl
  | cons v0 rest =>
      obtain ⟨v, f, rfl⟩ := hshape v0 (by simp)
      rfl

theorem sample_categorical_fallback (c3 : List (String × J)) (draws3 : List ℕ)
    (habs : Synth._as_list (jlookup c3 "sample_values") = [])
    (hdr3 : ∀ i ∈ draws3, i < getUnique (jlookup c3 "unique") 5) :
    Synth.sample_categorical c3 draws3 =
      some (draws3.map (fun i => "cat" ++ toString i)) := by
  unfold Synth.sample_categorical
  rw [habs]
  cases draws3 with
  | nil => simp
  | cons a l =>
      have hu0 : 0 < getUnique (jlookup c3 "unique") 5 := by
        have := hdr3 a (by simp)
        omega
      have hcne : ((List.range (getUnique (jlookup c3 "unique") 5)).map
          (fun i => "cat" ++ toString i)).isEmpty = false := by
        have hnn : ((List.range (getUnique (jlookup c3 "unique") 5)).map
            (fun i => "cat" ++ toString i)) ≠ [] := by
          simp only [ne_eq, List.map_eq_nil_iff, List.range_eq_nil]
          omega
        exact Bool.eq_false_iff.mpr (fun h => hnn (List.isEmpty_iff.mp h))
      simp only [List.isEmpty_nil, if_true, hcne, Bool.false_and]
      refine congrArg some (List.map_congr_left ?_)
      intro i hi
      have hilt : i < ((List.range (getUnique (jlookup c3 "unique") 5)).map
          (fun i => "cat" ++ toString i)).length := by
        rw [List.length_map, List.length_range]
        exact hdr3 i hi
      rw [List.getD_eq_getElem?_getD, List.getElem?_eq_getElem hilt]
      simp

/-- C6: for a categorical schema with a non-empty sample_values list of k
entries, the sampler's population is exactly the k listed values (the first
component of each stored pair, stringified): every synthesized value is one of
them, the j-th output is the value selected by the j-th uniform index draw of
random.choices (uniform with replacement), and the stored frequencies are
ignored — any schema listing the same values with different frequencies
synthesizes identically.  With sample_values absent or empty, the draws are
taken uniformly from the placeholder labels cat0 … cat{unique−1}. -/
theorem c6_sample_categorical_uniform (c : List (String × J)) (draws : List ℕ)
    (sv : List J)
    (hsv : jlookup c "sample_values" = some (.jarr sv))
    (hne : sv ≠ [])
    (hshape : ∀ e ∈ sv, ∃ v f, e = J.jarr [v, f])
    (hdr : ∀ i ∈ draws, i < sv.length) :
    (Synth.sample_categorical c draws =
      some (draws.map (fun i => (sv.map (fun e => jToStr (jhead e))).getD i ""))) ∧
    (∃ out, Synth.sample_categorical c draws = some out ∧
      out.length = draws.length ∧
      ∀ x ∈ out, x ∈ sv.map (fun e => jToStr (jhead e))) ∧
    (∀ (c2 : List (String × J)) (sv2 : List J),
      jlookup c2 "sample_values" = some (.jarr sv2) →
      (∀ e ∈ sv2, ∃ v f, e = J.jarr [v, f]) →
      sv2.map jhead = sv.map jhead →
      Synth.sample_categorical c2 draws = Synth.sample_categorical c draws) ∧
    (∀ (c3 : List (String × J)) (draws3 : List ℕ),
      (jlookup c3 "sample_values" = none ∨
        jlookup c3 "sample_values" = some (.jarr [])) →
      (∀ i ∈ draws3, i < getUnique (jlookup c3 "unique") 5) →
      Synth.sample_categorical c3 draws3 =
        some (draws3.map (fun i => "cat" ++ toString i))) := by
  have hlistc : Synth._as_list (jlookup c "sample_values") =
      sv.map (fun e => jToStr (jhead e)) := by
    rw [hsv]
    exact as_list_pairs sv hne hshape
  have hcatsne : (sv.map (fun e => jToStr (jhead e))).isEmpty = false := by
    cases sv with
    | nil => cases hne rfl
    | cons a l => rfl
  have hmain : Synth.sample_categorical c draws =
      some (draws.map (fun i => (sv.map (fun e => jToStr (jhead e))).getD i "")) := by
    unfold Synth.sample_categorical
    rw [hlistc]
    simp [hcatsne]
  refine ⟨hmain, ⟨_, hmain, by simp, ?_⟩, ?_, ?_⟩
  · intro x hx
    rw [List.mem_map] at hx
    obtain ⟨i, hi, rfl⟩ := hx
    have hilt : i < (sv.map (fun e => jToStr (jhead e))).length := by
      rw [List.length_map]
      exact hdr i hi
    rw [List.getD_eq_getElem?_getD, List.getElem?_eq_getElem hilt]
    exact List.getElem_mem hilt
  · intro c2 sv2 hsv2 hshape2 hsame
    have hne2 : sv2 ≠ [] := by
      intro h0
      rw [h0] at hsame
      cases sv with
      | nil => exact hne rfl
      | cons a l => simp at hsame
    have hlist2 : Synth._as_list (jlookup c2 "sample_values") =
        sv2.map (fun e => jToStr (jhead e)) := by
      rw [hsv2]
      exact as_list_pairs sv2 hne2 hshape2
    have heq : sv2.map (fun e => jToStr (jhead e)) =
        sv.map (fun e => jToStr (jhead e)) := by
      have h1 : ∀ (l : List J), l.map (fun e => jToStr (jhead e)) =
          (l.map jhead).map jToStr := by
        intro l
        rw [List.map_map]
        rfl
      rw [h1, h1, hsame]
    unfold Synth.sample_categorical
    rw [hlistc, hlist2, heq]
    simp [hcatsne]
  · intro c3 draws3 habs hdr3
    have hl3 : Synth._as_list (jlookup c3 "sample_values") = [] := by
      rcases habs with h | h <;> rw [h] <;> rfl
    exact sample_categorical_fallback c3 draws3 hl3 hdr3

theorem c6_sample_categorical_uniform_witness :
    (Synth.sample_categorical
        [("sample_values", J.jarr [J.jarr [J.jstr "x", J.jnum 1], J.jarr [J.jstr "y", J.jnum 2]])]
        [1, 0] =
      some (([1, 0] : List ℕ).map (fun i =>
        (([J.jarr [J.jstr "x", J.jnum 1], J.jarr [J.jstr "y", J.jnum 2]] : List J).map
          (fun e => jToStr (jhead e))).getD i ""))) ∧
    (∃ out, Synth.sample_categorical
        [("sample_values", J.jarr [J.jarr [J.jstr "x", J.jnum 1], J.jarr [J.jstr "y", J.jnum 2]])]
        [1, 0] = some out ∧
      out.length = ([1, 0] : List ℕ).length ∧
      ∀ x ∈ out, x ∈ ([J.jarr [J.jstr "x", J.jnum 1], J.jarr [J.jstr "y", J.jnum 2]] : List J).map
        (fun e => jToStr (jhead e))) ∧
    (∀ (c2 : List (String × J)) (sv2 : List J),
      jlookup c2 "sample_values" = some (.jarr sv2) →
      (∀ e ∈ sv2, ∃ v f, e = J.jarr [v, f]) →
      sv2.map jhead =
        ([J.jarr [J.jstr "x", J.jnum 1], J.jarr [J.jstr "y", J.jnum 2]] : List J).map jhead →
      Synth.sample_categorical c2 [1, 0] = Synth.sample_categorical
        [("sample_values", J.jarr [J.jarr [J.jstr "x", J.jnum 1], J.jarr [J.jstr "y", J.jnum 2]])]
        [1, 0]) ∧
    (∀ (c3 : List (String × J)) (draws3 : List ℕ),
      (jlookup c3 "sample_values" = none ∨
        jlookup c3 "sample_values" = some (.jarr [])) →
      (∀ i ∈ draws3, i < getUnique (jlookup c3 "unique") 5) →
      Synth.sample_categorical c3 draws3 =
        some (draws3.map (fun i => "cat" ++ toString i))) :=
  c6_sample_categorical_uniform
    [("sample_values", J.jarr [J.jarr [J.jstr "x", J.jnum 1], J.jarr [J.jstr "y", J.jnum 2]])]
    [1, 0]
    [J.jarr [J.jstr "x", J.jnum 1], J.jarr [J.jstr "y", J.jnum 2]]
    rfl
    (List.cons_ne_nil _ _)
    (by
      intro e he
      rcases List.mem_cons.mp he with rfl | he2
      · exact ⟨J.jstr "x", J.jnum 1, rfl⟩
      · rcases List.mem_cons.mp he2 with rfl | he3
        · exact ⟨J.jstr "y", J.jnum 2, rfl⟩
        · cases he3)
    (by decide)



theorem dictInsert_keys (d : List (String × ColData)) (k : String) (v : ColData) :
    (dictInsert d k v).map Prod.fst =
      if k ∈ d.map Prod.fst then d.map Prod.fst else d.map Prod.fst ++ [k] := by
  unfold dictInsert
  by_cases h : d.any (fun p => p.1 = k)
  · rw [if_pos h]
    have hk : k ∈ d.map Prod.fst := by
      rw [List.any_eq_true] at h
      obtain ⟨p, hp, he⟩ := h
      rw [decide_eq_true_eq] at he
      exact List.mem_map.mpr ⟨p, hp, he⟩
    rw [if_pos hk, List.map_map]
    apply List.map_congr_left
    intro p hp
    by_cases hpk : p.1 = k
    · simp [hpk]
    · simp [hpk]
  · rw [if_neg h]
    have hk : k ∉ d.map Prod.fst := by
      intro hmem
      obtain ⟨p, hp, he⟩ := List.mem_map.mp hmem
      exact h (List.any_eq_true.mpr ⟨p, hp, by rw [decide_eq_true_eq]; exact he⟩)
    rw [if_neg hk, List.map_append]
    rfl

theorem pyKeys_of_nodup (nms : List String) :
    ∀ (ks : List String), (ks ++ nms).Nodup → pyKeys ks nms = ks ++ nms := by
  induction nms with
  | nil =>
      intro ks _
      simp [pyKeys]
  | cons nm rest ih =>
      intro ks hnd
      have hnm : nm ∉ ks := by
        intro hmem
        rw [List.nodup_append] at hnd
        exact hnd.2.2 hmem (List.mem_cons_self _ _)
      unfold pyKeys
      rw [List.foldl_cons, if_neg hnm]
      have h2 : ((ks ++ [nm]) ++ rest).Nodup := by
        rw [List.append_assoc]
        simpa using hnd
      have h3 := ih (ks ++ [nm]) h2
      unfold pyKeys at h3
      rw [h3, List.append_assoc]
      rfl

theorem generateCols_keys (rows : ℕ) (z : ℕ → List ℚ) (g : ℕ → List ℕ) :
    ∀ (cols : List J) (i : ℕ) (acc out : List (String × ColData)),
      generateCols rows z g cols i acc = some out →
      ∃ nms, colNames? cols = some nms ∧
        out.map Prod.fst = pyKeys (acc.map Prod.fst) nms := by
  intro cols
  induction cols with
  | nil =>
      intro i acc out h
      unfold generateCols at h
      injection h with h2
      subst h2
      exact ⟨[], rfl, by simp [pyKeys]⟩
  | cons c rest ih =>
      intro i acc out h
      unfold generateCols at h
      cases c with
      | jnull => exact Option.noConfusion h
      | jbool b => exact Option.noConfusion h
      | jnum q => exact Option.noConfusion h
      | jsqrt q => exact Option.noConfusion h
      | jdate d => exact Option.noConfusion h
      | jstr t => exact Option.noConfusion h
      | jarr l => exact Option.noConfusion h
      | jobj o =>
          dsimp only at h
          split at h
          next nm ty hn ht =>
            split at h
            next dat hd =>
              obtain ⟨nms, hnms, hkeys⟩ := ih (i + 1) (dictInsert acc nm dat) out h
              refine ⟨nm :: nms, ?_, ?_⟩
              · unfold colNames?
                rw [show colName? (J.jobj o) = some nm from by
                  unfold colName?; dsimp only; rw [hn], hnms]
              · rw [hkeys]
                unfold pyKeys
                rw [List.foldl_cons, dictInsert_keys]
            next hd => exact Option.noConfusion h
          next h1 h2 => exact Option.noConfusion h

/-- C9 (amended): generate_rows never rejects a column for its type — a
descriptor whose type is not the string "numeric", "datetime" or "text"
(including type strings outside the documented four, such as "int", which
validate_schema accepts) is synthesized by the categorical sampler; and
whenever generation succeeds on a validated schema whose column names are
distinct, the output table has exactly one column per descriptor, labelled in
schema order.  Descriptors sharing a name collapse into one dict entry (see
the counterexample), so distinctness is required for one-column-per-descriptor. -/
theorem c9_generate_rows_dispatch_and_columns (schema : List (String × J))
    (rows : ℕ) (z : ℕ → List ℚ) (g : ℕ → List ℕ)
    (cols : List J) (nms : List String) (out : List (String × ColData))
    (_hval : validate_schema schema = .ok ())
    (hcols : jlookup schema "columns" = some (.jarr cols))
    (hnms : colNames? cols = some nms)
    (hnodup : nms.Nodup)
    (hout : generate_rows schema rows z g = some out) :
    out.map Prod.fst = nms ∧
    (∀ (o : List (String × J)) (nm : String) (t : J) (i : ℕ)
        (acc : List (String × ColData)),
      jlookup o "name" = some (.jstr nm) → jlookup o "type" = some t →
      isStr t "numeric" = false → isStr t "datetime" = false →
      isStr t "text" = false →
      generateCols rows z g [J.jobj o] i acc =
        (Synth.sample_categorical o (g i)).map
          (fun cs => dictInsert acc nm (ColData.categoricalD cs))) := by
  constructor
  · unfold generate_rows at hout
    rw [hcols] at hout
    obtain ⟨nms2, hnms2, hkeys⟩ := generateCols_keys rows z g cols 0 [] out hout
    rw [hnms] at hnms2
    injection hnms2 with he
    subst he
    rw [hkeys]
    have hpk := pyKeys_of_nodup nms [] (by simpa using hnodup)
    simpa using hpk
  · intro o nm t i acc hn ht h1 h2 h3
    unfold generateCols
    dsimp only
    rw [hn, ht]
    dsimp only
    simp only [h1, h2, h3, Bool.false_eq_true, if_false]
    cases hs : Synth.sample_categorical o (g i) with
    | none => rfl
    | some cs => rfl

theorem c9_generate_rows_dispatch_and_columns_witness :
    (([("a", ColData.categoricalD ["cat0"]),
        ("b", ColData.textD ["lorem ipsum"])] : List (String × ColData)).map Prod.fst =
      ["a", "b"]) ∧
    (∀ (o : List (String × J)) (nm : String) (t : J) (i : ℕ)
        (acc : List (String × ColData)),
      jlookup o "name" = some (.jstr nm) → jlookup o "type" = some t →
      isStr t "numeric" = false → isStr t "datetime" = false →
      isStr t "text" = false →
      generateCols 1 (fun _ => ([] : List ℚ)) (fun _ => ([0] : List ℕ)) [J.jobj o] i acc =
        (Synth.sample_categorical o [0]).map
          (fun cs => dictInsert acc nm (ColData.categoricalD cs))) :=
  c9_generate_rows_dispatch_and_columns
    [("columns", J.jarr [J.jobj [("name", J.jstr "a"), ("type", J.jstr "int")],
                         J.jobj [("name", J.jstr "b"), ("type", J.jstr "text")]])]
    1 (fun _ => []) (fun _ => [0])
    [J.jobj [("name", J.jstr "a"), ("type", J.jstr "int")],
     J.jobj [("name", J.jstr "b"), ("type", J.jstr "text")]]
    ["a", "b"]
    [("a", ColData.categoricalD ["cat0"]), ("b", ColData.textD ["lorem ipsum"])]
    rfl rfl rfl (by decide) (by decide)

/-- C9 counterexample: a schema with two descriptors that share the name "a"
(type "int", accepted by validate_schema) passes validation, yet generate_rows
stores columns in a dict keyed by name, so the output has one column, not one
per descriptor. -/
theorem c9_generate_rows_counterexample :
    validate_schema [("columns", J.jarr
      [J.jobj [("name", J.jstr "a"), ("type", J.jstr "int")],
       J.jobj [("name", J.jstr "a"), ("type", J.jstr "int")]])] = .ok () ∧
    generate_rows [("columns", J.jarr
      [J.jobj [("name", J.jstr "a"), ("type", J.jstr "int")],
       J.jobj [("name", J.jstr "a"), ("type", J.jstr "int")]])]
      1 (fun _ => []) (fun _ => [0]) =
      some [("a", ColData.categoricalD ["cat0"])] ∧
    ([J.jobj [("name", J.jstr "a"), ("type", J.jstr "int")],
      J.jobj [("name", J.jstr "a"), ("type", J.jstr "int")]] : List J).length = 2 ∧
    ([("a", ColData.categoricalD ["cat0"])] : List (String × ColData)).length = 1 ∧
    (1 : ℕ) ≠ 2 :=
  ⟨rfl, by decide, rfl, rfl, by decide⟩



theorem c2_categorical_freq_over_total_witness :
    (∃ sv, jlookup (_profile_column "c"
        [Val.str "a", Val.str "a", Val.str "a", Val.str "a", Val.str "a", Val.str "b"]
        [Val.str "a", Val.str "a", Val.str "a", Val.str "a", Val.str "a", Val.str "b"])
        "sample_values" = some (.jarr sv) ∧
      ∀ e ∈ sv, ∃ v, v ∈ dropna
          [Val.str "a", Val.str "a", Val.str "a", Val.str "a", Val.str "a", Val.str "b"] ∧
        e = .jarr [valToJ v, .jnum
          (((dropna [Val.str "a", Val.str "a", Val.str "a", Val.str "a", Val.str "a",
              Val.str "b"]).count v : ℚ) /
            (([Val.str "a", Val.str "a", Val.str "a", Val.str "a", Val.str "a",
              Val.str "b"] : List Val).length : ℚ))]) ∧
    (([Val.str "a", Val.str "a", Val.str "a", Val.str "a", Val.str "a",
        Val.str "b"] : List Val).count Val.null = 0 →
      dropna [Val.str "a", Val.str "a", Val.str "a", Val.str "a", Val.str "a", Val.str "b"] =
        [Val.str "a", Val.str "a", Val.str "a", Val.str "a", Val.str "a", Val.str "b"]) :=
  c2_categorical_freq_over_total "c"
    [Val.str "a", Val.str "a", Val.str "a", Val.str "a", Val.str "a", Val.str "b"]
    [Val.str "a", Val.str "a", Val.str "a", Val.str "a", Val.str "a", Val.str "b"]
    (by
      unfold _infer_col_type
      dsimp only
      have h1 : dropna [Val.str "a", Val.str "a", Val.str "a", Val.str "a", Val.str "a",
          Val.str "b"] =
          [Val.str "a", Val.str "a", Val.str "a", Val.str "a", Val.str "a", Val.str "b"] := by
        decide
      rw [h1]
      have e1 : ([Val.str "a", Val.str "a", Val.str "a", Val.str "a", Val.str "a",
          Val.str "b"] : List Val).isEmpty = false := by decide
      have e2 : ([Val.str "a", Val.str "a", Val.str "a", Val.str "a", Val.str "a",
          Val.str "b"] : List Val).all parsesNum = false := by decide
      have e3 : ([Val.str "a", Val.str "a", Val.str "a", Val.str "a", Val.str "a",
          Val.str "b"] : List Val).countP parsesDate = 0 := by decide
      have e4 : ([Val.str "a", Val.str "a", Val.str "a", Val.str "a", Val.str "a",
          Val.str "b"] : List Val).dedup.length = 2 := by decide
      have e5 : ([Val.str "a", Val.str "a", Val.str "a", Val.str "a", Val.str "a",
          Val.str "b"] : List Val).length = 6 := by decide
      rw [e1, e2, e3, e4, e5]
      norm_num)


end DataDepth
